import Mathlib

/-!
Shallow embedding of `src/tools/validation_checks.py` (an annotation-quality
validation script for a COCO-style visual dataset and a tabular text dataset),
together with theorems settling the specification claims about it.

Conventions of the embedding:
* Python numbers are modelled as rationals (ℚ); integer ids and image sizes as ℤ.
* A Python dict field read with `d.get(k, default)` is an `Option` field with
  `Option.getD`; a direct `d[k]` access on a possibly missing field is a
  `keyError` in the `Except Err` monad.
* Python exceptions (KeyError, TypeError, ZeroDivisionError) are values of
  `Err`; an uncaught exception makes the embedded function return `.error e`.
* Values appearing inside a bbox list may be numbers or strings (JSON allows
  both); comparing or adding a string and a number raises `typeError`,
  mirroring Python semantics.
-/

namespace ValidationChecks

/-- A JSON scalar inside a bbox list: a number or a (non-numeric) string. -/
inductive BVal where
  | num (q : ℚ)
  | str (s : String)
  deriving DecidableEq, Repr

/-- Python runtime errors that the script can raise (uncaught). -/
inductive Err where
  | keyError
  | typeError
  | zeroDivisionError
  deriving DecidableEq, Repr

/-- An entry of the COCO `images` list.  The script accesses `id`, `width`
and `height` only with direct subscripts, so they are modelled as present. -/
structure Image where
  id : Int
  width : Int
  height : Int
  deriving DecidableEq, Repr

/-- An entry of the COCO `annotations` list.  Every field the script reads is
modelled as optional, since the script reads some with `.get` (absent gives a
default) and others with a direct subscript (absent raises KeyError). -/
structure Ann where
  id : Option Int
  image_id : Option Int
  category_id : Option Int
  bbox : Option (List BVal)
  area : Option ℚ
  deriving DecidableEq, Repr

/-- An entry of the COCO `categories` list (`id` and `name` read directly). -/
structure Cat where
  id : Int
  name : String
  deriving DecidableEq, Repr

/-- The parsed JSON object: `data.get(key, [])` for the three keys, so an
absent key is the same as an empty list. -/
structure CocoData where
  images : List Image
  annotations : List Ann
  categories : List Cat
  deriving DecidableEq, Repr

/-- Python `b <= c` for a bbox component `b` and a number `c`:
a TypeError when `b` is a string. -/
def pyLeNum : BVal → ℚ → Except Err Bool
  | .num q, c => .ok (decide (q ≤ c))
  | .str _, _ => .error .typeError

/-- Python `b < c` for a bbox component `b` and a number `c`. -/
def pyLtNum : BVal → ℚ → Except Err Bool
  | .num q, c => .ok (decide (q < c))
  | .str _, _ => .error .typeError

/-- Python `b > c` for a bbox component `b` and a number `c`. -/
def pyGtNum : BVal → ℚ → Except Err Bool
  | .num q, c => .ok (decide (q > c))
  | .str _, _ => .error .typeError

/-- Python `a + b` on bbox components: number plus number adds, string plus
string concatenates, and a mixed pair raises TypeError. -/
def pyAdd : BVal → BVal → Except Err BVal
  | .num a, .num b => .ok (.num (a + b))
  | .str a, .str b => .ok (.str (a ++ b))
  | _, _ => .error .typeError

/-- Python short-circuit `or` over two boolean computations: the second is
evaluated (and can raise) only when the first yields `false`. -/
def pyOr (a : Except Err Bool) (b : Unit → Except Err Bool) : Except Err Bool := do
  let x ← a
  if x then pure true else b ()

/-- `next((img for img in images if img['id'] == image_id), None)`
(validation_checks.py lines 61, 77, 115): first image whose id equals the
given (possibly absent) annotation `image_id`. -/
def findImage (images : List Image) (iid : Option Int) : Option Image :=
  images.find? (fun img => decide (some img.id = iid))

/-- The issue strings appended to `issues` in Check 1, abstracted to carry the
data interpolated into the message (lines 51, 58, 64, 67). -/
inductive Issue where
  | invalidBboxFormat (ann_id : Option Int)
  | invalidBboxDims (ann_id : Option Int) (w h : BVal)
  | negativeCoords (ann_id : Option Int) (x y : BVal)
  | bboxExceedsBounds (ann_id : Option Int)
  deriving DecidableEq, Repr

/-- Check 1 body for one annotation (lines 45-67): bbox length, positive
dimensions, and (only when the image resolves) coordinate and bounds checks. -/
def check1Ann (images : List Image) (ann : Ann) : Except Err (List Issue) :=
  -- bbox = ann.get('bbox', [])
  match ann.bbox.getD [] with
  | [x, y, w, h] => do
    -- if w <= 0 or h <= 0: record invalid dimensions (line 57)
    let dimBad ← pyOr (pyLeNum w 0) (fun _ => pyLeNum h 0)
    let issues1 := if dimBad then [Issue.invalidBboxDims ann.id w h] else []
    -- img = next((img for img in images if img['id'] == image_id), None)
    match findImage images ann.image_id with
    | none => pure issues1
    | some img => do
      -- if x < 0 or y < 0 (line 63)
      let negBad ← pyOr (pyLtNum x 0) (fun _ => pyLtNum y 0)
      let issues2 := issues1 ++ (if negBad then [Issue.negativeCoords ann.id x y] else [])
      -- if x + w > img['width'] or y + h > img['height'] (line 66)
      let outBad ← pyOr (do let xw ← pyAdd x w; pyGtNum xw (img.width : ℚ))
                        (fun _ => do let yh ← pyAdd y h; pyGtNum yh (img.height : ℚ))
      pure (issues2 ++ (if outBad then [Issue.bboxExceedsBounds ann.id] else []))
  | _ =>
    -- if len(bbox) != 4: record invalid format and continue (lines 50-52)
    pure [Issue.invalidBboxFormat ann.id]

/-- Accumulate per-annotation issue lists in order (the `for ann in
annotations` loop of Check 1), propagating any raised exception. -/
def collectAll {α β : Type} (f : α → Except Err (List β)) : List α → Except Err (List β)
  | [] => .ok []
  | a :: as => do
    let here ← f a
    let rest ← collectAll f as
    pure (here ++ rest)

/-- Check 1 (lines 45-67) over the whole annotation list. -/
def check1 (images : List Image) (anns : List Ann) : Except Err (List Issue) :=
  collectAll (check1Ann images) anns

/-- An element of the `small_objects` list (lines 84-88). -/
structure SmallObj where
  id : Int
  image_id : Option Int
  area_percent : ℚ
  deriving DecidableEq, Repr

/-- Check 2 body for one annotation (lines 74-88): default `area` to 0, skip
unresolved images, flag `relative_area < 1`. -/
def check2Ann (images : List Image) (ann : Ann) : Except Err (Option SmallObj) := do
  -- area = ann.get('area', 0); img_id = ann.get('image_id')
  let area := ann.area.getD 0
  let img_id := ann.image_id
  match findImage images img_id with
  | none => pure none
  | some img =>
    -- img_area = img['width'] * img['height']
    let imgArea : ℚ := ((img.width * img.height : Int) : ℚ)
    -- relative_area = (area / img_area) * 100 ; Python raises on division by zero
    if imgArea = 0 then throw Err.zeroDivisionError else
    let relative_area := area / imgArea * 100
    if relative_area < 1 then
      -- small_objects.append({'id': ann['id'], ...}) : direct subscript on id
      match ann.id with
      | none => throw Err.keyError
      | some aid => pure (some ⟨aid, img_id, relative_area⟩)
    else pure none

/-- Run a per-element computation that may collect a value, keeping the
collected values in order (the append-inside-loop pattern of Checks 2,3). -/
def collectSome {α β : Type} (f : α → Except Err (Option β)) : List α → Except Err (List β)
  | [] => .ok []
  | a :: as => do
    let o ← f a
    let rest ← collectSome f as
    match o with
    | none => pure rest
    | some b => pure (b :: rest)

/-- Check 2 (lines 73-88) over the whole annotation list. -/
def check2 (images : List Image) (anns : List Ann) : Except Err (List SmallObj) :=
  collectSome (check2Ann images) anns

/-- Lower-case one character, as Python `str.lower` does for ASCII names. -/
def lowChar (c : Char) : Char :=
  if 65 ≤ c.toNat ∧ c.toNat ≤ 90 then Char.ofNat (c.toNat + 32) else c

/-- Whether `pat` occurs as a contiguous run inside `l` (Python `in` on
strings), by scanning every suffix. -/
def containsSeq (pat : List Char) : List Char → Bool
  | [] => decide (pat = [])
  | c :: rest => decide (pat = (c :: rest).take pat.length) || containsSeq pat rest

/-- `'background' in cat['name'].lower()` (line 107). -/
def hasBackgroundName (name : String) : Bool :=
  containsSeq "background".toList (name.toList.map lowChar)

/-- The `background_cat_id` computed by the loop at lines 105-109: the id of
the first category whose lower-cased name contains "background", else the
initial `None`. -/
def findBackgroundCatId (cats : List Cat) : Option Int :=
  (cats.find? (fun c => hasBackgroundName c.name)).map (fun c => c.id)

/-- An element of the `large_boxes` list (lines 122-126): here `image_id`
comes from a direct subscript, hence is a plain integer. -/
structure LargeBox where
  id : Int
  image_id : Int
  area_percent : ℚ
  deriving DecidableEq, Repr

/-- Check 3 body for one annotation, given the background category id
(lines 112-126).  All annotation fields here are direct subscripts. -/
def check3Ann (images : List Image) (bg : Int) (ann : Ann) : Except Err (Option LargeBox) := do
  match ann.category_id with
  | none => throw Err.keyError
  | some cid =>
    if cid = bg then
      match ann.image_id with
      | none => throw Err.keyError
      | some img_id =>
        match findImage images (some img_id) with
        | none => pure none
        | some img =>
          match ann.area with
          | none => throw Err.keyError
          | some a =>
            let imgArea : ℚ := ((img.width * img.height : Int) : ℚ)
            if imgArea = 0 then throw Err.zeroDivisionError else
            let relative_area := a / imgArea * 100
            if relative_area > 50 then
              match ann.id with
              | none => throw Err.keyError
              | some aid => pure (some ⟨aid, img_id, relative_area⟩)
            else pure none
    else pure none

/-- Check 3 (lines 102-126).  `if background_cat_id:` is Python truthiness:
both `None` (no category found) and the integer `0` skip the scan. -/
def check3 (images : List Image) (anns : List Ann) (cats : List Cat) :
    Except Err (List LargeBox) :=
  match findBackgroundCatId cats with
  | none => .ok []
  | some bg => if bg ≠ 0 then collectSome (check3Ann images bg) anns else .ok []

/-- `[ann for ann in annotations if ann['image_id'] == img['id']]` (line 141):
the comprehension evaluates `ann['image_id']` for every annotation, so any
annotation missing the field raises KeyError.  Only the length is used. -/
def countMatches (iid : Int) : List Ann → Except Err Nat
  | [] => .ok 0
  | a :: as =>
    match a.image_id with
    | none => .error Err.keyError
    | some x => do
      let rest ← countMatches iid as
      pure (if x = iid then rest + 1 else rest)

/-- Check 4 (lines 139-143): ids of images with zero matching annotations. -/
def check4 (anns : List Ann) : List Image → Except Err (List Int)
  | [] => .ok []
  | img :: rest => do
    let n ← countMatches img.id anns
    let others ← check4 anns rest
    pure (if n = 0 then img.id :: others else others)

/-- The `results` dict returned at lines 164-171. -/
structure VisualResults where
  total_images : Nat
  total_annotations : Nat
  critical_issues : Nat
  small_objects : Nat
  large_backgrounds : Nat
  images_without_annotations : Nat
  deriving DecidableEq, Repr

/-- The body of `validate_visual_annotations` after a successful load:
runs the four checks and assembles the summary. -/
def runVisualChecks (d : CocoData) : Except Err VisualResults := do
  let issues ← check1 d.images d.annotations
  let smalls ← check2 d.images d.annotations
  let larges ← check3 d.images d.annotations d.categories
  let noAnns ← check4 d.annotations d.images
  pure { total_images := d.images.length
         total_annotations := d.annotations.length
         critical_issues := issues.length
         small_objects := smalls.length
         large_backgrounds := larges.length
         images_without_annotations := noAnns.length }

/-- Outcome of loading the JSON source (lines 20-28): the two caught load
failures, or parsed data. -/
inductive VisualSource where
  | fileNotFound
  | jsonDecodeError
  | loaded (d : CocoData)
  deriving DecidableEq, Repr

/-- Observable outcome of the visual validator at its call site: the `None`
sentinel returned for the two caught load errors, an uncaught exception
propagating out, or the summary dict. -/
inductive VisOutcome where
  | sentinelNone
  | raised (e : Err)
  | summary (r : VisualResults)
  deriving DecidableEq, Repr

/-- `validate_visual_annotations` (lines 6-173): load errors give the `None`
sentinel (lines 23-28); any exception inside the checks propagates. -/
def validate_visual_annotations : VisualSource → VisOutcome
  | .fileNotFound => .sentinelNone
  | .jsonDecodeError => .sentinelNone
  | .loaded d =>
    match runVisualChecks d with
    | .error e => .raised e
    | .ok r => .summary r

/-! ### Text validator (`validate_text_annotations`, lines 176-265) -/

/-- A cell of the loaded DataFrame: `null` models a pandas missing value. -/
inductive Cell where
  | null
  | val (s : String)
  deriving DecidableEq, Repr

/-- The loaded DataFrame: a header (column names) and rows of cells aligned
with the header positions. -/
structure TextData where
  columns : List String
  rows : List (List Cell)
  deriving DecidableEq, Repr

/-- `df[c]` column access: KeyError when `c` is not a column name, else the
cell of each row at the position of `c` in the header. -/
def getCol (d : TextData) (c : String) : Except Err (List Cell) :=
  match d.columns.findIdx? (fun s => s == c) with
  | none => .error Err.keyError
  | some i => .ok (d.rows.map (fun r => r.getD i Cell.null))

/-- `required_cols` (line 207). -/
def requiredCols : List String := ["id", "text", "intent", "confidence"]

/-- `missing_cols = [col for col in required_cols if col not in df.columns]`
(line 208); reported by a print, never fatal by itself. -/
def missingCols (d : TextData) : List String :=
  requiredCols.filter (fun c => !(d.columns.contains c))

/-- Number of null cells of one column. -/
def countNulls (cells : List Cell) : Nat :=
  (cells.filter (fun c => c == Cell.null)).length

/-- `df.isnull().sum().sum()` over all columns of the frame (lines 219, 261). -/
def emptyValuesTotal (d : TextData) : Nat :=
  ((List.range d.columns.length).map
    (fun i => countNulls (d.rows.map (fun r => r.getD i Cell.null)))).sum

/-- The non-null values of a column, in row order (pandas drops missing
values before counting groups). -/
def nonNullValues (cells : List Cell) : List String :=
  cells.filterMap (fun c => match c with | Cell.null => none | Cell.val s => some s)

/-- Insert a pair into a list sorted by descending count, after all entries
with a count at least as big (stable descending insertion). -/
def insertDesc (p : String × Nat) : List (String × Nat) → List (String × Nat)
  | [] => [p]
  | q :: rest => if q.2 ≥ p.2 then q :: insertDesc p rest else p :: q :: rest

/-- Stable insertion sort by descending count. -/
def sortDesc : List (String × Nat) → List (String × Nat)
  | [] => []
  | p :: rest => insertDesc p (sortDesc rest)

/-- `series.value_counts()` (lines 231, 249): occurrence counts of the
distinct non-null values, sorted by descending count. -/
def value_counts (cells : List Cell) : List (String × Nat) :=
  let vs := nonNullValues cells
  sortDesc (vs.dedup.map (fun v => (v, vs.count v)))

/-- The per-group percentage printed at lines 234 and 251:
`(count / len(df)) * 100` for each group of a counts list. -/
def percentages (n : Nat) (counts : List (String × Nat)) : List ℚ :=
  counts.map (fun p => (p.2 : ℚ) / (n : ℚ) * 100)

/-- The imbalance test of lines 238-240: `max/min > 3` on the group counts.
pandas `max`/`min` over an empty series give NaN, and `NaN > 3` is false, so
the empty case yields `false`. -/
def imbalanceFlag (counts : List (String × Nat)) : Bool :=
  match (counts.map Prod.snd).max?, (counts.map Prod.snd).min? with
  | some M, some m => decide ((M : ℚ) / (m : ℚ) > 3)
  | _, _ => false

/-- `len(df[df['confidence'] == 'low'])` (line 254), given the column. -/
def lowConfidenceOf (cells : List Cell) : Nat :=
  (cells.filter (fun c => c == Cell.val "low")).length

/-- The `results` dict returned at lines 258-263. -/
structure TextResults where
  total_annotations : Nat
  unique_intents : Nat
  empty_values : Nat
  low_confidence_count : Nat
  deriving DecidableEq, Repr

/-- The body of `validate_text_annotations` after a successful load
(lines 200-265).  Missing required columns are only printed (line 211); the
distribution checks then subscript `df['intent']` and `df['confidence']`
directly, which raises KeyError when that column is absent. -/
def runTextChecks (d : TextData) : Except Err TextResults := do
  let n := d.rows.length
  -- Check 1 (lines 207-213): compute and print the missing columns
  let _missing := missingCols d
  -- Check 2 (lines 219-225): per-column null counts; total kept for results
  let empty := emptyValuesTotal d
  -- Check 3 (lines 231-243): intent distribution (percentages and the
  -- imbalance flag only drive printed output)
  let intentCells ← getCol d "intent"
  let intent_counts := value_counts intentCells
  let _intentPct := percentages n intent_counts
  let _imb := imbalanceFlag intent_counts
  -- Check 4 (lines 249-256): confidence distribution and low-confidence count
  let confCells ← getCol d "confidence"
  let conf_counts := value_counts confCells
  let _confPct := percentages n conf_counts
  let low := lowConfidenceOf confCells
  pure { total_annotations := n
         unique_intents := intent_counts.length
         empty_values := empty
         low_confidence_count := low }

/-- Outcome of loading the CSV source (lines 190-198): the two caught
failures (pandas missing, file missing), or the loaded frame. -/
inductive TextSource where
  | importErrorPandas
  | fileNotFound
  | loaded (d : TextData)
  deriving DecidableEq, Repr

/-- Observable outcome of the text validator at its call site. -/
inductive TextOutcome where
  | sentinelNone
  | raised (e : Err)
  | summary (r : TextResults)
  deriving DecidableEq, Repr

/-- `validate_text_annotations` (lines 176-265). -/
def validate_text_annotations : TextSource → TextOutcome
  | .importErrorPandas => .sentinelNone
  | .fileNotFound => .sentinelNone
  | .loaded d =>
    match runTextChecks d with
    | .error e => .raised e
    | .ok r => .summary r

/-! ### Well-formedness of a visual dataset (the data model of the spec) -/

/-- Whether a bbox component is a number. -/
def numericBVal : BVal → Bool
  | .num _ => true
  | .str _ => false

/-- An annotation carrying every field the script subscripts directly, with a
bbox list of numbers (of any length; a wrong length is reported, not fatal). -/
def wfAnn (a : Ann) : Bool :=
  a.id.isSome && a.image_id.isSome && a.category_id.isSome && a.area.isSome &&
    (match a.bbox with
     | some l => l.all numericBVal
     | none => false)

/-- An image with positive dimensions, as the data model requires. -/
def wfImage (i : Image) : Bool :=
  decide (0 < i.width) && decide (0 < i.height)

/-- A dataset conforming to the data model of the spec (section 3). -/
def wellFormed (d : CocoData) : Bool :=
  d.annotations.all wfAnn && d.images.all wfImage

/-! ### Concrete datasets used as counterexamples and witnesses -/

/-- A 100 x 100 image with id 1. -/
def img100 : Image := { id := 1, width := 100, height := 100 }

/-- A background category carrying the id 0 (the usual COCO background id). -/
def catBg0 : Cat := { id := 0, name := "background" }

/-- An annotation of category 0 covering 80 percent of `img100`. -/
def annBg0 : Ann :=
  { id := some 7, image_id := some 1, category_id := some 0
    bbox := some [.num 0, .num 0, .num 90, .num 90], area := some 8000 }

/-- Dataset for claim C1: a background category with id 0 and an oversized
annotation of that category. -/
def dC1 : CocoData := { images := [img100], annotations := [annBg0], categories := [catBg0] }

/-- An annotation whose bbox has four components that are all strings. -/
def annStrBbox : Ann :=
  { id := some 3, image_id := some 1, category_id := some 1
    bbox := some [.str "a", .str "b", .str "c", .str "d"], area := some 5 }

/-- Dataset for claim C5: one resolvable annotation with a non-numeric
four-component bbox. -/
def dC5 : CocoData := { images := [img100], annotations := [annStrBbox], categories := [] }

/-- An annotation whose bbox has three components. -/
def annLen3 : Ann :=
  { id := some 4, image_id := some 1, category_id := some 1
    bbox := some [.num 0, .num 0, .num 50], area := some 2500 }

/-- Dataset used by the C5 witness: one annotation with a length-3 bbox. -/
def dLen3 : CocoData := { images := [img100], annotations := [annLen3], categories := [] }

/-- A fully well-formed one-annotation dataset (used by the C9 witness). -/
def dWf : CocoData :=
  { images := [img100]
    annotations := [{ id := some 1, image_id := some 1, category_id := some 2
                      bbox := some [.num 5, .num 5, .num 10, .num 10], area := some 100 }]
    categories := [{ id := 2, name := "car" }] }

/-- Record set for claim C2: the columns `intent` and `confidence` are absent. -/
def dC2 : TextData :=
  { columns := ["id", "text"], rows := [[.val "1", .val "hello"]] }

/-- Record set with all required columns (C2 witness). -/
def dC2w : TextData :=
  { columns := ["id", "text", "intent", "confidence"]
    rows := [[.val "1", .val "t", .val "greet", .val "high"],
             [.val "2", .val "u", .val "greet", .val "low"]] }

/-- Record set for claim C4: one of the two intent cells is missing. -/
def dC4 : TextData :=
  { columns := ["id", "text", "intent", "confidence"]
    rows := [[.val "1", .val "t", .val "a", .val "high"],
             [.val "2", .val "u", .null, .val "high"]] }

/-- Intent column cells with counts 4 and 1 (C7 witness, ratio 4 > 3). -/
def cellsC7 : List Cell := [.val "a", .val "a", .val "a", .val "a", .val "b"]

/-- A background category with a nonzero id (C1 witness). -/
def catBg5 : Cat := { id := 5, name := "background" }

/-- An annotation with an empty bbox whose image id matches no image. -/
def annNoImg : Ann :=
  { id := some 9, image_id := some 2, category_id := some 1
    bbox := some [], area := some 4 }

/-- Dataset for the C8 witness: one image, one annotation referencing a
different image id. -/
def dC8 : CocoData := { images := [img100], annotations := [annNoImg], categories := [] }

/-- An annotation with a negative x coordinate on a resolvable image. -/
def annNeg : Ann :=
  { id := some 11, image_id := some 1, category_id := some 1
    bbox := some [.num (-5), .num 0, .num 10, .num 10], area := some 100 }

/-- An annotation of area 50 on `img100` (relative area 0.5 percent). -/
def annSmall : Ann :=
  { id := some 21, image_id := some 1, category_id := some 5
    bbox := some [.num 0, .num 0, .num 5, .num 10], area := some 50 }

/-- An annotation that lacks the `area` field but has a resolvable image. -/
def annNoArea : Ann :=
  { id := some 31, image_id := some 1, category_id := some 5
    bbox := some [.num 0, .num 0, .num 5, .num 10], area := none }

/-! ### Generic lemmas about the embedded monadic traversals -/

theorem exceptBind_ok {α β : Type} (x : α) (f : α → Except Err β) :
    (Except.ok x >>= f) = f x := rfl

theorem exceptBind_error {α β : Type} (e : Err) (f : α → Except Err β) :
    ((Except.error e : Except Err α) >>= f) = Except.error e := rfl

theorem exceptPure_def {α : Type} (x : α) : (pure x : Except Err α) = Except.ok x := rfl

theorem collectSome_ok {α β : Type} (f : α → Except Err (Option β)) (l : List α)
    (h : ∀ a ∈ l, ∃ o, f a = .ok o) : ∃ r, collectSome f l = .ok r := by
  induction l with
  | nil => exact ⟨[], rfl⟩
  | cons a as ih =>
    obtain ⟨o, ho⟩ := h a (by simp)
    obtain ⟨r, hr⟩ := ih (fun x hx => h x (by simp [hx]))
    cases o with
    | none => exact ⟨r, by simp [collectSome, ho, hr, exceptBind_ok, exceptPure_def]⟩
    | some b => exact ⟨b :: r, by simp [collectSome, ho, hr, exceptBind_ok, exceptPure_def]⟩

theorem collectSome_mem {α β : Type} (f : α → Except Err (Option β)) (l : List α)
    (r : List β) (h : collectSome f l = .ok r) (b : β) :
    b ∈ r ↔ ∃ a ∈ l, f a = .ok (some b) := by
  induction l generalizing r with
  | nil =>
    simp only [collectSome] at h
    cases h
    simp
  | cons a as ih =>
    cases hfa : f a with
    | error e => simp [collectSome, hfa, exceptBind_error] at h
    | ok o =>
      cases hrest : collectSome f as with
      | error e => simp [collectSome, hfa, hrest, exceptBind_ok, exceptBind_error] at h
      | ok r' =>
        have hmem := ih r' hrest
        cases o with
        | none =>
          simp only [collectSome, hfa, hrest, exceptBind_ok, exceptPure_def] at h
          cases h
          simp only [hmem, List.mem_cons]
          constructor
          · rintro ⟨x, hx, hfx⟩
            exact ⟨x, Or.inr hx, hfx⟩
          · rintro ⟨x, hx | hx, hfx⟩
            · subst hx
              rw [hfa] at hfx
              cases hfx
            · exact ⟨x, hx, hfx⟩
        | some b' =>
          simp only [collectSome, hfa, hrest, exceptBind_ok, exceptPure_def] at h
          cases h
          simp only [List.mem_cons, hmem]
          constructor
          · rintro (hb | ⟨x, hx, hfx⟩)
            · exact ⟨a, Or.inl rfl, by rw [hfa, hb]⟩
            · exact ⟨x, Or.inr hx, hfx⟩
          · rintro ⟨x, hx | hx, hfx⟩
            · subst hx
              rw [hfa] at hfx
              cases hfx
              exact Or.inl rfl
            · exact Or.inr ⟨x, hx, hfx⟩

theorem collectAll_ok {α β : Type} (f : α → Except Err (List β)) (l : List α)
    (h : ∀ a ∈ l, ∃ o, f a = .ok o) : ∃ r, collectAll f l = .ok r := by
  induction l with
  | nil => exact ⟨[], rfl⟩
  | cons a as ih =>
    obtain ⟨o, ho⟩ := h a (by simp)
    obtain ⟨r, hr⟩ := ih (fun x hx => h x (by simp [hx]))
    exact ⟨o ++ r, by simp [collectAll, ho, hr, exceptBind_ok, exceptPure_def]⟩

theorem countMatches_eq (iid : Int) (l : List Ann) (n : Nat)
    (h : countMatches iid l = .ok n) :
    n = (l.filter (fun a => decide (a.image_id = some iid))).length := by
  induction l generalizing n with
  | nil =>
    simp only [countMatches] at h
    cases h
    simp
  | cons a as ih =>
    cases hid : a.image_id with
    | none => simp [countMatches, hid] at h
    | some x =>
      cases hrest : countMatches iid as with
      | error e => simp [countMatches, hid, hrest, exceptBind_error] at h
      | ok m =>
        simp only [countMatches, hid, hrest, exceptBind_ok, exceptPure_def] at h
        cases h
        by_cases hx : x = iid
        · simp [List.filter_cons, hid, hx, ← ih m hrest]
        · have : ¬(a.image_id = some iid) := by simp [hid, hx]
          simp [List.filter_cons, hid, hx, ← ih m hrest, this]

theorem countMatches_ok (iid : Int) (l : List Ann)
    (h : ∀ a ∈ l, a.image_id.isSome) : ∃ n, countMatches iid l = .ok n := by
  induction l with
  | nil => exact ⟨0, rfl⟩
  | cons a as ih =>
    obtain ⟨x, hx⟩ := Option.isSome_iff_exists.mp (h a (by simp))
    obtain ⟨m, hm⟩ := ih (fun y hy => h y (by simp [hy]))
    exact ⟨if x = iid then m + 1 else m,
      by simp [countMatches, hx, hm, exceptBind_ok, exceptPure_def]⟩

theorem check4_eq (anns : List Ann) (imgs : List Image) (l : List Int)
    (h : check4 anns imgs = .ok l) :
    l = (imgs.filter
          (fun img => decide (¬∃ a ∈ anns, a.image_id = some img.id))).map Image.id := by
  induction imgs generalizing l with
  | nil =>
    simp only [check4] at h
    cases h
    simp
  | cons img rest ih =>
    cases hn : countMatches img.id anns with
    | error e => simp [check4, hn, exceptBind_error] at h
    | ok n =>
      cases hrest : check4 anns rest with
      | error e => simp [check4, hn, hrest, exceptBind_ok, exceptBind_error] at h
      | ok l' =>
        simp only [check4, hn, hrest, exceptBind_ok, exceptPure_def] at h
        cases h
        have hcount := countMatches_eq img.id anns n hn
        have hzero : n = 0 ↔ ¬∃ a ∈ anns, a.image_id = some img.id := by
          rw [hcount, List.length_eq_zero, List.filter_eq_nil_iff]
          simp
        rw [ih l' hrest, List.filter_cons]
        by_cases hz : n = 0
        · have hno : ∀ x ∈ anns, ¬x.image_id = some img.id :=
            fun x hx hxe => (hzero.mp hz) ⟨x, hx, hxe⟩
          rw [if_pos hz, if_pos (of_decide_eq_true (by simpa using hno)), List.map_cons]
        · have hyes : ∃ x ∈ anns, x.image_id = some img.id := by
            by_contra hc
            exact hz (hzero.mpr (by simpa using hc))
          rw [if_neg hz, if_neg (by simpa using hyes)]

theorem check4_ok (anns : List Ann) (imgs : List Image)
    (h : ∀ a ∈ anns, a.image_id.isSome) : ∃ l, check4 anns imgs = .ok l := by
  induction imgs with
  | nil => exact ⟨[], rfl⟩
  | cons img rest ih =>
    obtain ⟨n, hn⟩ := countMatches_ok img.id anns h
    obtain ⟨l', hl'⟩ := ih
    exact ⟨if n = 0 then img.id :: l' else l',
      by simp [check4, hn, hl', exceptBind_ok, exceptPure_def]⟩

theorem pyOr_le_eval (w h c : ℚ) :
    pyOr (pyLeNum (.num w) c) (fun _ => pyLeNum (.num h) c) =
      .ok (decide (w ≤ c ∨ h ≤ c)) := by
  by_cases hw : w ≤ c <;> by_cases hh : h ≤ c <;>
    simp [pyOr, pyLeNum, exceptBind_ok, exceptPure_def, hw, hh]

theorem pyOr_lt_eval (x y c : ℚ) :
    pyOr (pyLtNum (.num x) c) (fun _ => pyLtNum (.num y) c) =
      .ok (decide (x < c ∨ y < c)) := by
  by_cases hx : x < c <;> by_cases hy : y < c <;>
    simp [pyOr, pyLtNum, exceptBind_ok, exceptPure_def, hx, hy]

theorem pyOr_bounds_eval (x y w h cw ch : ℚ) :
    pyOr (do let xw ← pyAdd (.num x) (.num w); pyGtNum xw cw)
         (fun _ => do let yh ← pyAdd (.num y) (.num h); pyGtNum yh ch) =
      .ok (decide (x + w > cw ∨ y + h > ch)) := by
  by_cases hx : x + w > cw <;> by_cases hy : y + h > ch <;>
    simp [pyOr, pyAdd, pyGtNum, exceptBind_ok, exceptPure_def, hx, hy]

/-- Evaluation of Check 1 on an annotation with a fully numeric length-4
bbox: never an error, and exactly the dimension, coordinate and bounds
issues the conditions demand. -/
theorem check1Ann_num (imgs : List Image) (ann : Ann) (x y w h : ℚ)
    (hb : ann.bbox = some [.num x, .num y, .num w, .num h]) :
    check1Ann imgs ann = .ok (
      (if w ≤ 0 ∨ h ≤ 0 then [Issue.invalidBboxDims ann.id (.num w) (.num h)] else []) ++
      (match findImage imgs ann.image_id with
       | none => []
       | some img =>
         (if x < 0 ∨ y < 0 then [Issue.negativeCoords ann.id (.num x) (.num y)] else []) ++
         (if x + w > (img.width : ℚ) ∨ y + h > (img.height : ℚ) then
            [Issue.bboxExceedsBounds ann.id] else []))) := by
  simp only [check1Ann, hb, Option.getD_some, pyOr_le_eval, exceptBind_ok]
  cases hfi : findImage imgs ann.image_id with
  | none =>
    simp only [exceptPure_def]
    by_cases hdim : w ≤ 0 ∨ h ≤ 0 <;> simp [hdim]
  | some img =>
    simp only [pyOr_lt_eval, pyOr_bounds_eval, exceptBind_ok, exceptPure_def]
    by_cases hdim : w ≤ 0 ∨ h ≤ 0 <;>
      by_cases hneg : x < 0 ∨ y < 0 <;>
        by_cases hout : x + w > (img.width : ℚ) ∨ y + h > (img.height : ℚ) <;>
          simp [hdim, hneg, hout]

/-- Evaluation of Check 1 on an annotation whose bbox (after the empty-list
default) does not have length 4: exactly the invalid-format issue. -/
theorem check1Ann_badLen (imgs : List Image) (ann : Ann)
    (hb : (ann.bbox.getD []).length ≠ 4) :
    check1Ann imgs ann = .ok [Issue.invalidBboxFormat ann.id] := by
  cases hto : ann.bbox.getD [] with
  | nil => simp [check1Ann, hto, exceptPure_def]
  | cons a0 t0 =>
    cases t0 with
    | nil => simp [check1Ann, hto, exceptPure_def]
    | cons a1 t1 =>
      cases t1 with
      | nil => simp [check1Ann, hto, exceptPure_def]
      | cons a2 t2 =>
        cases t2 with
        | nil => simp [check1Ann, hto, exceptPure_def]
        | cons a3 t3 =>
          cases t3 with
          | nil =>
            rw [hto] at hb
            simp at hb
          | cons a4 t4 => simp [check1Ann, hto, exceptPure_def]

/-- Inversion of a successful visual validation into the four check results. -/
theorem runVisualChecks_ok_inv (d : CocoData) (r : VisualResults)
    (h : runVisualChecks d = .ok r) :
    ∃ issues smalls larges noAnns,
      check1 d.images d.annotations = .ok issues ∧
      check2 d.images d.annotations = .ok smalls ∧
      check3 d.images d.annotations d.categories = .ok larges ∧
      check4 d.annotations d.images = .ok noAnns ∧
      r = { total_images := d.images.length
            total_annotations := d.annotations.length
            critical_issues := issues.length
            small_objects := smalls.length
            large_backgrounds := larges.length
            images_without_annotations := noAnns.length } := by
  cases h1 : check1 d.images d.annotations with
  | error e => simp [runVisualChecks, h1, exceptBind_error] at h
  | ok issues =>
    cases h2 : check2 d.images d.annotations with
    | error e => simp [runVisualChecks, h1, h2, exceptBind_ok, exceptBind_error] at h
    | ok smalls =>
      cases h3 : check3 d.images d.annotations d.categories with
      | error e => simp [runVisualChecks, h1, h2, h3, exceptBind_ok, exceptBind_error] at h
      | ok larges =>
        cases h4 : check4 d.annotations d.images with
        | error e =>
          simp [runVisualChecks, h1, h2, h3, h4, exceptBind_ok, exceptBind_error] at h
        | ok noAnns =>
          refine ⟨issues, smalls, larges, noAnns, rfl, rfl, rfl, rfl, ?_⟩
          simp only [runVisualChecks, h1, h2, h3, h4, exceptBind_ok, exceptPure_def] at h
          cases h
          rfl

/-- Inversion of a successful text validation into its column accesses. -/
theorem runTextChecks_ok_inv (d : TextData) (r : TextResults)
    (h : runTextChecks d = .ok r) :
    ∃ intentCells confCells,
      getCol d "intent" = .ok intentCells ∧
      getCol d "confidence" = .ok confCells ∧
      r = { total_annotations := d.rows.length
            unique_intents := (value_counts intentCells).length
            empty_values := emptyValuesTotal d
            low_confidence_count := lowConfidenceOf confCells } := by
  cases h1 : getCol d "intent" with
  | error e => simp [runTextChecks, h1, exceptBind_error] at h
  | ok intentCells =>
    cases h2 : getCol d "confidence" with
    | error e => simp [runTextChecks, h1, h2, exceptBind_ok, exceptBind_error] at h
    | ok confCells =>
      refine ⟨intentCells, confCells, rfl, rfl, ?_⟩
      simp only [runTextChecks, h1, h2, exceptBind_ok, exceptPure_def] at h
      cases h
      rfl

/-! ### Claim C8 -/

/-- C8: in every successful visual validation, the summary field
`images_without_annotations` equals the number of images that no annotation
references by `image_id` — independent of whether the referencing
annotations pass or fail any validity check, since only the id equality is
consulted. -/
theorem validate_C8 (d : CocoData) (r : VisualResults)
    (h : runVisualChecks d = .ok r) :
    r.images_without_annotations =
      (d.images.filter
        (fun img => decide (¬∃ ann ∈ d.annotations, ann.image_id = some img.id))).length := by
  obtain ⟨issues, smalls, larges, noAnns, h1, h2, h3, h4, hr⟩ := runVisualChecks_ok_inv d r h
  subst hr
  simp [check4_eq _ _ _ h4]

/-- C8 witness: a dataset with one image and one annotation referencing a
missing image id; the single image counts as unannotated. -/
theorem validate_C8_witness :
    ({ total_images := 1, total_annotations := 1, critical_issues := 1, small_objects := 0, large_backgrounds := 0, images_without_annotations := 1 } : VisualResults).images_without_annotations =
      (dC8.images.filter
        (fun img => decide (¬∃ ann ∈ dC8.annotations, ann.image_id = some img.id))).length :=
  validate_C8 dC8 _ (by rfl)

/-! ### Claim C1 -/

/-- C1 (amended): the oversized-background check runs if and only if the
first category whose lower-cased name contains "background" exists AND has a
nonzero id; `if background_cat_id:` is Python truthiness, so both a missing
category and a first background category with id 0 skip the scan entirely,
while a nonzero id runs the per-annotation scan. -/
theorem validate_C1 (imgs : List Image) (anns : List Ann) (cats : List Cat) :
    (findBackgroundCatId cats = none → check3 imgs anns cats = .ok []) ∧
    (findBackgroundCatId cats = some 0 → check3 imgs anns cats = .ok []) ∧
    (∀ bg, findBackgroundCatId cats = some bg → bg ≠ 0 →
      check3 imgs anns cats = collectSome (check3Ann imgs bg) anns ∧
      ∀ l, check3 imgs anns cats = .ok l →
        ∀ b, b ∈ l ↔ ∃ ann ∈ anns, check3Ann imgs bg ann = .ok (some b)) := by
  refine ⟨?_, ?_, ?_⟩
  · intro h
    simp [check3, h]
  · intro h
    simp [check3, h]
  · intro bg hbg hne
    have hrun : check3 imgs anns cats = collectSome (check3Ann imgs bg) anns := by
      simp [check3, hbg, hne]
    exact ⟨hrun, fun l hl b => collectSome_mem _ _ _ (hrun ▸ hl) b⟩

/-- C1 witness: with a background category of nonzero id 5, the check is the
actual per-annotation scan. -/
theorem validate_C1_witness :
    check3 [img100] [annBg0] [catBg5] = collectSome (check3Ann [img100] 5) [annBg0] :=
  ((validate_C1 [img100] [annBg0] [catBg5]).2.2 5 (by decide) (by decide)).1

/-- C1 counterexample: a category named "background" exists (id 0), the
annotation `annBg0` has that category id, its image resolves, and its
relative area is 80 percent (> 50), so the claim as stated demands it be
collected; the code skips the check (id 0 is falsy) and the summary reports
`large_backgrounds = 0`. -/
theorem validate_C1_cex :
    hasBackgroundName catBg0.name = true ∧
    findBackgroundCatId dC1.categories = some 0 ∧
    check3Ann dC1.images 0 annBg0 = .ok (some ⟨7, 1, 8000 / (10000 : ℚ) * 100⟩) ∧
    (8000 / (10000 : ℚ) * 100 > 50) ∧
    check3 dC1.images dC1.annotations dC1.categories = .ok [] ∧
    runVisualChecks dC1 = .ok { total_images := 1, total_annotations := 1, critical_issues := 0, small_objects := 0, large_backgrounds := 0, images_without_annotations := 0 } := by
  have hfi : findImage dC1.images (some 1) = some img100 := by rfl
  refine ⟨by decide, by decide, ?_, by norm_num, ?_, ?_⟩
  · simp only [check3Ann, annBg0, hfi, exceptPure_def]
    norm_num [img100]
  · simp [check3, show findBackgroundCatId dC1.categories = some 0 from by decide]
  · have hc1a : check1Ann dC1.images annBg0 = .ok [] := by
      rw [check1Ann_num dC1.images annBg0 0 0 90 90 rfl]
      show Except.ok _ = _
      rw [show findImage dC1.images annBg0.image_id = some img100 from rfl]
      norm_num [img100]
    have hc2a : check2Ann dC1.images annBg0 = .ok none := by
      simp only [check2Ann, annBg0, hfi, exceptPure_def]
      norm_num [img100]
    have h1 : check1 dC1.images dC1.annotations = .ok [] := by
      simp [check1, collectAll, hc1a, exceptBind_ok, exceptPure_def]
    have h2 : check2 dC1.images dC1.annotations = .ok [] := by
      simp [check2, collectSome, hc2a, exceptBind_ok, exceptPure_def]
    have h3 : check3 dC1.images dC1.annotations dC1.categories = .ok [] := by
      simp [check3, show findBackgroundCatId dC1.categories = some 0 from by decide]
    have h4 : check4 dC1.annotations dC1.images = .ok [] := by rfl
    simp [runVisualChecks, h1, h2, h3, h4, exceptBind_ok, exceptPure_def]
    exact ⟨rfl, rfl⟩

/-! ### Claim C6 -/

/-- C6: for an annotation with a fully numeric 4-component bbox, the
negative-coordinates issue is recorded iff the `image_id` resolves by
first-match lookup (given x < 0 or y < 0), and an unresolved image yields
neither a coordinates issue nor a bounds issue. -/
theorem validate_C6 (imgs : List Image) (ann : Ann) (x y w h : ℚ)
    (issues : List Issue)
    (hb : ann.bbox = some [.num x, .num y, .num w, .num h])
    (hrun : check1Ann imgs ann = .ok issues) :
    ((x < 0 ∨ y < 0) →
      (Issue.negativeCoords ann.id (.num x) (.num y) ∈ issues ↔
        (findImage imgs ann.image_id).isSome)) ∧
    (findImage imgs ann.image_id = none →
      Issue.negativeCoords ann.id (.num x) (.num y) ∉ issues ∧
      Issue.bboxExceedsBounds ann.id ∉ issues) := by
  rw [check1Ann_num imgs ann x y w h hb, Except.ok.injEq] at hrun
  subst hrun
  cases hfi : findImage imgs ann.image_id with
  | none =>
    constructor
    · intro hneg
      by_cases hdim : w ≤ 0 ∨ h ≤ 0 <;> simp [hdim]
    · intro _
      by_cases hdim : w ≤ 0 ∨ h ≤ 0 <;> simp [hdim]
  | some img =>
    constructor
    · intro hneg
      by_cases hdim : w ≤ 0 ∨ h ≤ 0 <;>
        by_cases hout : x + w > (img.width : ℚ) ∨ y + h > (img.height : ℚ) <;>
          simp [hdim, hout, hneg]
    · intro hnone
      cases hnone

/-- C6 witness: a concrete annotation with x = -5 on a resolvable image; the
issue is recorded. -/
theorem validate_C6_witness :
    Issue.negativeCoords annNeg.id (.num (-5)) (.num 0) ∈
      [Issue.negativeCoords annNeg.id (.num (-5)) (.num 0)] :=
  ((validate_C6 [img100] annNeg (-5) 0 10 10
      [Issue.negativeCoords annNeg.id (.num (-5)) (.num 0)] rfl
      (by rw [check1Ann_num [img100] annNeg (-5) 0 10 10 rfl,
            show findImage [img100] annNeg.image_id = some img100 from rfl]
          norm_num [img100])).1
    (Or.inl (by norm_num))).mpr rfl

/-! ### Claim C5 -/

theorem exists_len4 {α : Type} (l : List α) (h : l.length = 4) :
    ∃ a b c d, l = [a, b, c, d] := by
  cases l with
  | nil => simp at h
  | cons a t1 =>
    cases t1 with
    | nil => simp at h
    | cons b t2 =>
      cases t2 with
      | nil => simp at h
      | cons c t3 =>
        cases t3 with
        | nil => simp at h
        | cons d t4 =>
          cases t4 with
          | nil => exact ⟨a, b, c, d, rfl⟩
          | cons e t5 => simp at h

/-- Any successful Check 1 run on a length-4 bbox never reports the
invalid-format issue, whatever the component types. -/
theorem check1Ann_len4_no_format (imgs : List Image) (ann : Ann)
    (hlen : (ann.bbox.getD []).length = 4) (issues : List Issue)
    (hrun : check1Ann imgs ann = .ok issues) :
    Issue.invalidBboxFormat ann.id ∉ issues := by
  obtain ⟨x, y, w, h, hb⟩ := exists_len4 _ hlen
  simp only [check1Ann, hb] at hrun
  cases hd : pyOr (pyLeNum w 0) (fun _ => pyLeNum h 0) with
  | error e => simp [hd, exceptBind_error] at hrun
  | ok dimBad =>
    cases hfi : findImage imgs ann.image_id with
    | none =>
      simp only [hd, hfi, exceptBind_ok, exceptPure_def, Except.ok.injEq] at hrun
      subst hrun
      cases dimBad <;> simp
    | some img =>
      cases ho : pyOr (pyLtNum x 0) (fun _ => pyLtNum y 0) with
      | error e => simp [hd, hfi, ho, exceptBind_ok, exceptBind_error] at hrun
      | ok negBad =>
        cases hout : pyOr (do let xw ← pyAdd x w; pyGtNum xw (img.width : ℚ))
            (fun _ => do let yh ← pyAdd y h; pyGtNum yh (img.height : ℚ)) with
        | error e => simp [hd, hfi, ho, hout, exceptBind_ok, exceptBind_error] at hrun
        | ok outBad =>
          simp only [hd, hfi, ho, hout, exceptBind_ok, exceptPure_def,
            Except.ok.injEq] at hrun
          subst hrun
          cases dimBad <;> cases negBad <;> cases outBad <;> simp

/-- C5 (amended): the invalid-format issue is recorded exactly for bboxes
whose length differs from 4 (in which case Check 1 completes for that
annotation with just this issue); a 4-component bbox never yields it, even
with non-numeric components — those instead raise a type error or pass
unreported. -/
theorem validate_C5 (imgs : List Image) (ann : Ann) :
    ((ann.bbox.getD []).length ≠ 4 →
      check1Ann imgs ann = .ok [Issue.invalidBboxFormat ann.id]) ∧
    (∀ issues, check1Ann imgs ann = .ok issues →
      (Issue.invalidBboxFormat ann.id ∈ issues ↔ (ann.bbox.getD []).length ≠ 4)) := by
  refine ⟨check1Ann_badLen imgs ann, ?_⟩
  intro issues hrun
  by_cases hlen : (ann.bbox.getD []).length = 4
  · simp only [hlen, ne_eq, not_true_eq_false, iff_false]
    exact check1Ann_len4_no_format imgs ann hlen issues hrun
  · rw [check1Ann_badLen imgs ann hlen, Except.ok.injEq] at hrun
    subst hrun
    simp [hlen]

/-- C5 witness: a length-3 bbox is reported as invalid format and Check 1
completes on that annotation. -/
theorem validate_C5_witness :
    check1Ann dLen3.images annLen3 = .ok [Issue.invalidBboxFormat annLen3.id] :=
  (validate_C5 dLen3.images annLen3).1 (by decide)

/-- C5 counterexample: a bbox of four string components is not reported as
invalid format; instead the whole validator raises a TypeError and returns
no summary, contradicting the claim. -/
theorem validate_C5_cex :
    (annStrBbox.bbox.getD []).length = 4 ∧
    check1Ann dC5.images annStrBbox = .error Err.typeError ∧
    validate_visual_annotations (.loaded dC5) = .raised Err.typeError := by
  refine ⟨by decide, by rfl, by rfl⟩

/-! ### Claims C3 and C10: the relative-area thresholds -/

theorem exceptThrow_def {α : Type} (e : Err) :
    (throw e : Except Err α) = Except.error e := rfl

/-- Evaluation of Check 2 on an annotation with a present area, a resolving
image and a nonzero image area. -/
theorem check2Ann_eval (imgs : List Image) (ann : Ann) (img : Image)
    (aid : Int) (a : ℚ)
    (hfi : findImage imgs ann.image_id = some img)
    (hid : ann.id = some aid) (ha : ann.area = some a)
    (hA : ((img.width * img.height : Int) : ℚ) ≠ 0) :
    check2Ann imgs ann =
      (if a / ((img.width * img.height : Int) : ℚ) * 100 < 1 then
        .ok (some ⟨aid, ann.image_id, a / ((img.width * img.height : Int) : ℚ) * 100⟩)
      else .ok none) := by
  simp only [check2Ann, ha, hid, Option.getD_some, hfi, if_neg hA, exceptPure_def]

/-- Any object collected by Check 2 has relative area strictly below 1. -/
theorem check2Ann_some_lt (imgs : List Image) (ann : Ann) (b : SmallObj)
    (h : check2Ann imgs ann = .ok (some b)) : b.area_percent < 1 := by
  simp only [check2Ann] at h
  split at h
  · simp [exceptPure_def] at h
  · split at h
    · simp [exceptThrow_def] at h
    · split at h
      · split at h
        · simp [exceptThrow_def] at h
        · simp only [exceptPure_def, Except.ok.injEq, Option.some.injEq] at h
          subst h
          assumption
      · simp [exceptPure_def] at h

/-- Evaluation of the Check 3 body on a background-category annotation with
present fields, a resolving image and a nonzero image area. -/
theorem check3Ann_eval (imgs : List Image) (bg : Int) (ann : Ann) (img : Image)
    (aid iid : Int) (a : ℚ)
    (hcat : ann.category_id = some bg)
    (hiid : ann.image_id = some iid)
    (hfi : findImage imgs (some iid) = some img)
    (hid : ann.id = some aid) (ha : ann.area = some a)
    (hA : ((img.width * img.height : Int) : ℚ) ≠ 0) :
    check3Ann imgs bg ann =
      (if a / ((img.width * img.height : Int) : ℚ) * 100 > 50 then
        .ok (some ⟨aid, iid, a / ((img.width * img.height : Int) : ℚ) * 100⟩)
      else .ok none) := by
  simp only [check3Ann, hcat, hiid, hfi, hid, ha, if_pos rfl, if_neg hA, exceptPure_def]
  simp

/-- Any object collected by the Check 3 body has relative area above 50. -/
theorem check3Ann_some_gt (imgs : List Image) (bg : Int) (ann : Ann) (b : LargeBox)
    (h : check3Ann imgs bg ann = .ok (some b)) : b.area_percent > 50 := by
  simp only [check3Ann] at h
  split at h
  · simp [exceptThrow_def] at h
  · split at h
    · split at h
      · simp [exceptThrow_def] at h
      · split at h
        · simp [exceptPure_def] at h
        · split at h
          · simp [exceptThrow_def] at h
          · split at h
            · simp [exceptThrow_def] at h
            · split at h
              · split at h
                · simp [exceptThrow_def] at h
                · simp only [exceptPure_def, Except.ok.injEq, Option.some.injEq] at h
                  subst h
                  assumption
              · simp [exceptPure_def] at h
    · simp [exceptPure_def] at h

/-- C3: for an annotation whose image resolves, it is collected as a small
object iff its relative area `area/(width*height)*100` is strictly below 1,
and (with a nonzero background category id matching its category) collected
as a large background box iff the relative area is strictly above 50; every
collected small object is below 1 and every collected large box above 50,
so the boundaries 1 and 50 are excluded. -/
theorem validate_C3 (imgs : List Image) (anns : List Ann) (cats : List Cat)
    (ann : Ann) (img : Image) (aid : Int) (a : ℚ)
    (hmem : ann ∈ anns)
    (hfi : findImage imgs ann.image_id = some img)
    (hid : ann.id = some aid) (ha : ann.area = some a)
    (hA : ((img.width * img.height : Int) : ℚ) ≠ 0) :
    (∀ l, check2 imgs anns = .ok l →
      (∀ b ∈ l, b.area_percent < 1) ∧
      ((⟨aid, ann.image_id, a / ((img.width * img.height : Int) : ℚ) * 100⟩ : SmallObj) ∈ l ↔
        a / ((img.width * img.height : Int) : ℚ) * 100 < 1)) ∧
    (∀ bg, findBackgroundCatId cats = some bg → bg ≠ 0 →
      ann.category_id = some bg → ∀ iid, ann.image_id = some iid →
      ∀ l, check3 imgs anns cats = .ok l →
        (∀ b ∈ l, b.area_percent > 50) ∧
        ((⟨aid, iid, a / ((img.width * img.height : Int) : ℚ) * 100⟩ : LargeBox) ∈ l ↔
          a / ((img.width * img.height : Int) : ℚ) * 100 > 50)) := by
  constructor
  · intro l hl
    have hmemiff := collectSome_mem (check2Ann imgs) anns l hl
    constructor
    · intro b hb
      obtain ⟨x, _, hx⟩ := (hmemiff b).mp hb
      exact check2Ann_some_lt imgs x b hx
    · constructor
      · intro hin
        obtain ⟨x, _, hx⟩ := (hmemiff _).mp hin
        have hlt := check2Ann_some_lt imgs x _ hx
        simpa using hlt
      · intro hrel
        refine (hmemiff _).mpr ⟨ann, hmem, ?_⟩
        rw [check2Ann_eval imgs ann img aid a hfi hid ha hA, if_pos hrel]
  · intro bg hbg hne hcat iid hiid l hl
    have hrun : check3 imgs anns cats = collectSome (check3Ann imgs bg) anns := by
      simp [check3, hbg, hne]
    rw [hrun] at hl
    have hmemiff := collectSome_mem (check3Ann imgs bg) anns l hl
    constructor
    · intro b hb
      obtain ⟨x, _, hx⟩ := (hmemiff b).mp hb
      exact check3Ann_some_gt imgs bg x b hx
    · constructor
      · intro hin
        obtain ⟨x, _, hx⟩ := (hmemiff _).mp hin
        have hgt := check3Ann_some_gt imgs bg x _ hx
        simpa using hgt
      · intro hrel
        refine (hmemiff _).mpr ⟨ann, hmem, ?_⟩
        rw [hiid] at hfi
        rw [check3Ann_eval imgs bg ann img aid iid a hcat hiid hfi hid ha hA, if_pos hrel]

/-- C3 witness: an annotation of area 50 on a 100 x 100 image (relative area
0.5 percent) is collected as a small object. -/
theorem validate_C3_witness :
    (⟨21, some 1, 50 / ((100 * 100 : Int) : ℚ) * 100⟩ : SmallObj) ∈
      [(⟨21, some 1, 50 / ((100 * 100 : Int) : ℚ) * 100⟩ : SmallObj)] := by
  have hev : check2 [img100] [annSmall] =
      .ok [⟨21, some 1, 50 / ((100 * 100 : Int) : ℚ) * 100⟩] := by
    have h1 : check2Ann [img100] annSmall =
        .ok (some ⟨21, some 1, 50 / ((100 * 100 : Int) : ℚ) * 100⟩) := by
      rw [check2Ann_eval [img100] annSmall img100 21 50 rfl rfl rfl (by norm_num [img100])]
      rw [if_pos (by norm_num [img100])]
      rfl
    simp [check2, collectSome, h1, exceptBind_ok, exceptPure_def]
  exact (((validate_C3 [img100] [annSmall] [] annSmall img100 21 50 (by simp) rfl rfl rfl
      (by norm_num [img100])).1 _ hev).2).mpr (by norm_num [img100])

/-- C10: an annotation without an `area` field whose image resolves is always
collected by the small-object check (its defaulted relative area is 0 < 1)
and lands in the small-objects list; the background check instead reads
`ann['area']` directly and raises KeyError on the same annotation. -/
theorem validate_C10 (imgs : List Image) (anns : List Ann) (ann : Ann)
    (img : Image) (aid : Int)
    (hnoarea : ann.area = none) (hid : ann.id = some aid)
    (hfi : findImage imgs ann.image_id = some img)
    (hA : ((img.width * img.height : Int) : ℚ) ≠ 0) :
    check2Ann imgs ann = .ok (some ⟨aid, ann.image_id, 0⟩) ∧
    (ann ∈ anns → ∀ l, check2 imgs anns = .ok l →
      (⟨aid, ann.image_id, 0⟩ : SmallObj) ∈ l) ∧
    (∀ bg, ann.category_id = some bg → ∀ iid, ann.image_id = some iid →
      check3Ann imgs bg ann = .error Err.keyError) := by
  have h2 : check2Ann imgs ann = .ok (some ⟨aid, ann.image_id, 0⟩) := by
    simp only [check2Ann, hnoarea, hid, Option.getD_none, hfi, if_neg hA, exceptPure_def]
    norm_num
  refine ⟨h2, ?_, ?_⟩
  · intro hmem l hl
    exact (collectSome_mem (check2Ann imgs) anns l hl _).mpr ⟨ann, hmem, h2⟩
  · intro bg hcat iid hiid
    rw [hiid] at hfi
    simp only [check3Ann, hcat, hiid, hfi, hnoarea, if_pos rfl, exceptThrow_def]
    simp

/-- C10 witness: the concrete annotation `annNoArea` on `img100`. -/
theorem validate_C10_witness :
    check2Ann [img100] annNoArea = .ok (some ⟨31, some 1, 0⟩) :=
  (validate_C10 [img100] [annNoArea] annNoArea img100 31 rfl rfl rfl (by norm_num [img100])).1

/-! ### Text-side lemmas: permutation of the sort, counts, columns -/

theorem insertDesc_perm (p : String × Nat) (l : List (String × Nat)) :
    (insertDesc p l).Perm (p :: l) := by
  induction l with
  | nil => exact List.Perm.refl _
  | cons q t ih =>
    simp only [insertDesc]
    by_cases hq : q.2 ≥ p.2
    · rw [if_pos hq]
      exact (ih.cons q).trans (List.Perm.swap p q t)
    · rw [if_neg hq]

theorem sortDesc_perm (l : List (String × Nat)) : (sortDesc l).Perm l := by
  induction l with
  | nil => exact List.Perm.refl _
  | cons p t ih =>
    exact (insertDesc_perm p (sortDesc t)).trans (ih.cons p)

/-- The group counts of `value_counts` sum to the number of non-null cells. -/
theorem value_counts_sum (cells : List Cell) :
    ((value_counts cells).map Prod.snd).sum = (nonNullValues cells).length := by
  unfold value_counts
  have hperm := sortDesc_perm ((nonNullValues cells).dedup.map
    (fun v => (v, (nonNullValues cells).count v)))
  rw [(hperm.map Prod.snd).sum_eq, List.map_map]
  simpa using List.sum_map_count_dedup_eq_length (nonNullValues cells)

/-- The printed per-group percentages sum to (sum of counts)/total*100. -/
theorem percentages_sum (n : Nat) (counts : List (String × Nat)) :
    (percentages n counts).sum = (((counts.map Prod.snd).sum : ℚ)) / (n : ℚ) * 100 := by
  induction counts with
  | nil => simp [percentages]
  | cons p t ih =>
    simp only [percentages, List.map_cons, List.sum_cons] at *
    rw [ih]
    push_cast
    ring

theorem findIdx?_some_iff {α : Type} (p : α → Bool) (l : List α) (i : Nat) :
    (∃ j, List.findIdx? p l i = some j) ↔ ∃ x ∈ l, p x = true := by
  induction l generalizing i with
  | nil => simp [List.findIdx?]
  | cons a t ih =>
    rw [List.findIdx?_cons]
    by_cases hp : p a = true
    · simp [hp]
    · rw [if_neg hp, ih (i + 1)]
      simp [hp]

theorem getCol_ok_length (d : TextData) (c : String) (cells : List Cell)
    (h : getCol d c = .ok cells) : cells.length = d.rows.length := by
  simp only [getCol] at h
  split at h
  · exact Except.noConfusion h
  · simp only [Except.ok.injEq] at h
    subst h
    simp

theorem mem_of_getCol_ok (d : TextData) (c : String) (cells : List Cell)
    (h : getCol d c = .ok cells) : c ∈ d.columns := by
  simp only [getCol] at h
  cases hf : d.columns.findIdx? (fun s => s == c) with
  | none => rw [hf] at h; exact Except.noConfusion h
  | some i =>
    obtain ⟨x, hx, hpx⟩ := (findIdx?_some_iff (fun s => s == c) d.columns 0).mp ⟨i, hf⟩
    simpa [show x = c from by simpa using hpx] using hx

theorem getCol_ok_of_mem (d : TextData) (c : String) (h : c ∈ d.columns) :
    ∃ cells, getCol d c = .ok cells := by
  obtain ⟨j, hj⟩ := (findIdx?_some_iff (fun s => s == c) d.columns 0).mpr
    ⟨c, h, by simp⟩
  exact ⟨d.rows.map (fun r => r.getD j Cell.null), by simp only [getCol, hj]⟩

/-! ### Claim C7 -/

/-- C7: given the intent group counts with maximum M and minimum m, the class
imbalance flag is raised iff M/m is strictly greater than 3, and a ratio of
exactly 3 does not raise it. -/
theorem validate_C7 (cells : List Cell) (M m : ℕ)
    (hM : ((value_counts cells).map Prod.snd).max? = some M)
    (hm : ((value_counts cells).map Prod.snd).min? = some m) :
    (imbalanceFlag (value_counts cells) = true ↔ (M : ℚ) / (m : ℚ) > 3) ∧
    ((M : ℚ) / (m : ℚ) = 3 → imbalanceFlag (value_counts cells) = false) := by
  constructor
  · simp only [imbalanceFlag, hM, hm]
    simp
  · intro h3
    simp only [imbalanceFlag, hM, hm]
    rw [h3]
    simp

/-- C7 witness: intents with counts 4 and 1 (ratio 4 > 3) raise the flag. -/
theorem validate_C7_witness :
    imbalanceFlag (value_counts cellsC7) = true :=
  (validate_C7 cellsC7 4 1 (by decide) (by decide)).1.mpr (by norm_num)

/-! ### Claim C4 -/

/-- C4 (amended): the per-group percentages of a distribution sum to
(non-null count)/total*100, hence to exactly 100 percent iff the record set
is nonempty and the grouped column has no missing values; pandas
`value_counts` drops nulls but the percentage denominator is the full row
count. -/
theorem validate_C4 (d : TextData) (cells : List Cell)
    (h : getCol d "intent" = .ok cells ∨ getCol d "confidence" = .ok cells) :
    (percentages d.rows.length (value_counts cells)).sum
        = ((nonNullValues cells).length : ℚ) / (d.rows.length : ℚ) * 100 ∧
    ((percentages d.rows.length (value_counts cells)).sum = 100 ↔
      0 < d.rows.length ∧ (nonNullValues cells).length = d.rows.length) := by
  have hlen : cells.length = d.rows.length := by
    cases h with
    | inl h => exact getCol_ok_length d "intent" cells h
    | inr h => exact getCol_ok_length d "confidence" cells h
  have hsum : (percentages d.rows.length (value_counts cells)).sum
      = ((nonNullValues cells).length : ℚ) / (d.rows.length : ℚ) * 100 := by
    rw [percentages_sum, value_counts_sum]
  refine ⟨hsum, ?_⟩
  rw [hsum]
  have hk : (nonNullValues cells).length ≤ d.rows.length := by
    rw [← hlen]
    exact List.length_filterMap_le _ _
  constructor
  · intro he
    rcases Nat.eq_zero_or_pos d.rows.length with h0 | hpos
    · rw [h0] at he
      norm_num at he
    · have hn0 : (d.rows.length : ℚ) ≠ 0 := Nat.cast_ne_zero.mpr hpos.ne'
      refine ⟨hpos, ?_⟩
      have hQ : ((nonNullValues cells).length : ℚ) = (d.rows.length : ℚ) := by
        field_simp at he
        linarith
      exact_mod_cast hQ
  · rintro ⟨hpos, hkeq⟩
    rw [hkeq]
    have hn0 : (d.rows.length : ℚ) ≠ 0 := Nat.cast_ne_zero.mpr hpos.ne'
    field_simp

/-- C4 witness: a two-row set whose intent column has no missing values:
the percentages sum to (2/2)*100. -/
theorem validate_C4_witness :
    (percentages dC2w.rows.length (value_counts [Cell.val "greet", Cell.val "greet"])).sum
      = ((nonNullValues [Cell.val "greet", Cell.val "greet"]).length : ℚ)
          / (dC2w.rows.length : ℚ) * 100 :=
  (validate_C4 dC2w [Cell.val "greet", Cell.val "greet"] (Or.inl (by rfl))).1

/-- C4 counterexample: two rows, one null intent; the group percentages sum
to 50, not 100 — far outside floating-point tolerance. -/
theorem validate_C4_cex :
    getCol dC4 "intent" = .ok [Cell.val "a", Cell.null] ∧
    (percentages dC4.rows.length (value_counts [Cell.val "a", Cell.null])).sum = 50 ∧
    (percentages dC4.rows.length (value_counts [Cell.val "a", Cell.null])).sum ≠ 100 := by
  have hvc : value_counts [Cell.val "a", Cell.null] = [("a", 1)] := by decide
  have hlen : dC4.rows.length = 2 := rfl
  refine ⟨by rfl, ?_, ?_⟩
  · rw [hvc, hlen]
    norm_num [percentages]
  · rw [hvc, hlen]
    norm_num [percentages]

/-! ### Claim C2 -/

/-- C2 (amended): missing required columns are only reported; the
empty-values computation and row count are unaffected, and the validator
returns a summary iff both `intent` and `confidence` are present as columns
— if either is absent, `df[col]` raises a KeyError and no summary is
produced (missing `id` or `text` alone is non-fatal). -/
theorem validate_C2 (d : TextData) :
    ((∃ r, runTextChecks d = .ok r) ↔
      ("intent" ∈ d.columns ∧ "confidence" ∈ d.columns)) ∧
    (∀ r, runTextChecks d = .ok r →
      r.empty_values = emptyValuesTotal d ∧ r.total_annotations = d.rows.length) := by
  constructor
  · constructor
    · rintro ⟨r, hr⟩
      obtain ⟨ic, cc, hic, hcc, -⟩ := runTextChecks_ok_inv d r hr
      exact ⟨mem_of_getCol_ok d "intent" ic hic, mem_of_getCol_ok d "confidence" cc hcc⟩
    · rintro ⟨hi, hc⟩
      obtain ⟨ic, hic⟩ := getCol_ok_of_mem d "intent" hi
      obtain ⟨cc, hcc⟩ := getCol_ok_of_mem d "confidence" hc
      refine ⟨{ total_annotations := d.rows.length, unique_intents := (value_counts ic).length, empty_values := emptyValuesTotal d, low_confidence_count := lowConfidenceOf cc }, ?_⟩
      simp only [runTextChecks, hic, hcc, exceptBind_ok, exceptPure_def]
  · intro r hr
    obtain ⟨ic, cc, hic, hcc, hre⟩ := runTextChecks_ok_inv d r hr
    subst hre
    exact ⟨rfl, rfl⟩

/-- C2 witness: with all four required columns present the validator returns
a summary. -/
theorem validate_C2_witness : ∃ r, runTextChecks dC2w = .ok r :=
  (validate_C2 dC2w).1.mpr ⟨by decide, by decide⟩

/-- C2 counterexample: a record set missing `intent` and `confidence`; both
are reported missing, yet the validator raises KeyError and returns no
summary, contradicting the claim that all remaining checks still run and a
summary is still returned. -/
theorem validate_C2_cex :
    missingCols dC2 = ["intent", "confidence"] ∧
    runTextChecks dC2 = .error Err.keyError ∧
    validate_text_annotations (.loaded dC2) = .raised Err.keyError := by
  refine ⟨by decide, by rfl, by rfl⟩

/-! ### Claim C9: failure behaviour of the visual validator -/

theorem numericBVal_num (b : BVal) (h : numericBVal b = true) : ∃ q, b = .num q := by
  cases b with
  | num q => exact ⟨q, rfl⟩
  | str s => simp [numericBVal] at h

theorem wfAnn_parts (a : Ann) (h : wfAnn a = true) :
    a.id.isSome = true ∧ a.image_id.isSome = true ∧ a.category_id.isSome = true ∧
    a.area.isSome = true ∧ ∃ l, a.bbox = some l ∧ l.all numericBVal = true := by
  simp only [wfAnn, Bool.and_eq_true] at h
  obtain ⟨⟨⟨⟨h1, h2⟩, h3⟩, h4⟩, h5⟩ := h
  refine ⟨h1, h2, h3, h4, ?_⟩
  cases hb : a.bbox with
  | none => rw [hb] at h5; simp at h5
  | some l => rw [hb] at h5; exact ⟨l, rfl, h5⟩

theorem wfImage_parts (i : Image) (h : wfImage i = true) :
    0 < i.width ∧ 0 < i.height := by
  simpa [wfImage, Bool.and_eq_true, decide_eq_true_eq] using h

theorem wf_imgArea_ne (imgs : List Image) (img : Image)
    (hi : imgs.all wfImage = true) (hmem : img ∈ imgs) :
    ((img.width * img.height : Int) : ℚ) ≠ 0 := by
  obtain ⟨hw, hh⟩ := wfImage_parts img (List.all_eq_true.mp hi img hmem)
  have : (0 : Int) < img.width * img.height := mul_pos hw hh
  exact_mod_cast this.ne'

theorem check1Ann_wf_ok (imgs : List Image) (ann : Ann) (h : wfAnn ann = true) :
    ∃ is, check1Ann imgs ann = .ok is := by
  obtain ⟨-, -, -, -, l, hb, hnum⟩ := wfAnn_parts ann h
  by_cases hlen : (ann.bbox.getD []).length = 4
  · obtain ⟨b0, b1, b2, b3, hl4⟩ := exists_len4 _ hlen
    rw [hb, Option.getD_some] at hl4
    subst hl4
    have hall := List.all_eq_true.mp hnum
    obtain ⟨x, hx⟩ := numericBVal_num b0 (hall b0 (by simp))
    obtain ⟨y, hy⟩ := numericBVal_num b1 (hall b1 (by simp))
    obtain ⟨w, hw⟩ := numericBVal_num b2 (hall b2 (by simp))
    obtain ⟨z, hz⟩ := numericBVal_num b3 (hall b3 (by simp))
    subst hx hy hw hz
    exact ⟨_, check1Ann_num imgs ann x y w z hb⟩
  · exact ⟨_, check1Ann_badLen imgs ann hlen⟩

theorem check2Ann_wf_ok (imgs : List Image) (ann : Ann)
    (ha : wfAnn ann = true) (hi : imgs.all wfImage = true) :
    ∃ o, check2Ann imgs ann = .ok o := by
  obtain ⟨hid, -, -, harea, -⟩ := wfAnn_parts ann ha
  cases hfi : findImage imgs ann.image_id with
  | none => exact ⟨none, by simp [check2Ann, hfi, exceptPure_def]⟩
  | some img =>
    have hmem : img ∈ imgs := List.mem_of_find?_eq_some hfi
    have hA := wf_imgArea_ne imgs img hi hmem
    obtain ⟨aid, haid⟩ := Option.isSome_iff_exists.mp hid
    obtain ⟨a, haa⟩ := Option.isSome_iff_exists.mp harea
    rw [check2Ann_eval imgs ann img aid a hfi haid haa hA]
    by_cases hrel : a / ((img.width * img.height : Int) : ℚ) * 100 < 1
    · exact ⟨_, by rw [if_pos hrel]⟩
    · exact ⟨none, by rw [if_neg hrel]⟩

theorem check3Ann_wf_ok (imgs : List Image) (bg : Int) (ann : Ann)
    (ha : wfAnn ann = true) (hi : imgs.all wfImage = true) :
    ∃ o, check3Ann imgs bg ann = .ok o := by
  obtain ⟨hid, hiid, hcat, harea, -⟩ := wfAnn_parts ann ha
  obtain ⟨cid, hcid⟩ := Option.isSome_iff_exists.mp hcat
  by_cases hcb : cid = bg
  · subst hcb
    obtain ⟨iid, hiid'⟩ := Option.isSome_iff_exists.mp hiid
    cases hfi : findImage imgs (some iid) with
    | none =>
      refine ⟨none, ?_⟩
      simp [check3Ann, hcid, hiid', hfi, exceptPure_def]
    | some img =>
      have hmem : img ∈ imgs := List.mem_of_find?_eq_some hfi
      have hA := wf_imgArea_ne imgs img hi hmem
      obtain ⟨aid, haid⟩ := Option.isSome_iff_exists.mp hid
      obtain ⟨a, haa⟩ := Option.isSome_iff_exists.mp harea
      rw [check3Ann_eval imgs cid ann img aid iid a hcid hiid' hfi haid haa hA]
      by_cases hrel : a / ((img.width * img.height : Int) : ℚ) * 100 > 50
      · exact ⟨_, by rw [if_pos hrel]⟩
      · exact ⟨none, by rw [if_neg hrel]⟩
  · refine ⟨none, ?_⟩
    simp [check3Ann, hcid, hcb, exceptPure_def]

/-- C9: the visual validator yields the `None` sentinel exactly for the two
caught load failures (file missing, malformed JSON), and on any loaded,
well-formed dataset (per the data model of the spec) it returns a summary
rather than raising. -/
theorem validate_C9 (src : VisualSource) :
    (validate_visual_annotations src = .sentinelNone ↔
      src = .fileNotFound ∨ src = .jsonDecodeError) ∧
    (∀ d, src = .loaded d → wellFormed d = true →
      ∃ r, validate_visual_annotations src = .summary r) := by
  constructor
  · cases src with
    | fileNotFound => simp [validate_visual_annotations]
    | jsonDecodeError => simp [validate_visual_annotations]
    | loaded d =>
      cases hrn : runVisualChecks d <;> simp [validate_visual_annotations, hrn]
  · intro d hsrc hwf
    subst hsrc
    simp only [wellFormed, Bool.and_eq_true] at hwf
    obtain ⟨hanns, himgs⟩ := hwf
    have hall := List.all_eq_true.mp hanns
    obtain ⟨issues, h1⟩ := collectAll_ok (check1Ann d.images) d.annotations
      (fun a hmem => check1Ann_wf_ok d.images a (hall a hmem))
    obtain ⟨smalls, h2⟩ := collectSome_ok (check2Ann d.images) d.annotations
      (fun a hmem => check2Ann_wf_ok d.images a (hall a hmem) himgs)
    have h3 : ∃ lb, check3 d.images d.annotations d.categories = .ok lb := by
      cases hbg : findBackgroundCatId d.categories with
      | none => exact ⟨[], by simp [check3, hbg]⟩
      | some bg =>
        by_cases hz : bg = 0
        · subst hz
          exact ⟨[], by simp [check3, hbg]⟩
        · obtain ⟨lb, hlb⟩ := collectSome_ok (check3Ann d.images bg) d.annotations
            (fun a hmem => check3Ann_wf_ok d.images bg a (hall a hmem) himgs)
          exact ⟨lb, by simp [check3, hbg, hz, hlb]⟩
    obtain ⟨larges, h3⟩ := h3
    obtain ⟨noAnns, h4⟩ := check4_ok d.annotations d.images
      (fun a hmem => (wfAnn_parts a (hall a hmem)).2.1)
    have hrun : runVisualChecks d = .ok
        { total_images := d.images.length, total_annotations := d.annotations.length, critical_issues := issues.length, small_objects := smalls.length, large_backgrounds := larges.length, images_without_annotations := noAnns.length } := by
      simp [runVisualChecks, check1, check2, h1, h2, h3, h4, exceptBind_ok, exceptPure_def]
    refine ⟨{ total_images := d.images.length, total_annotations := d.annotations.length, critical_issues := issues.length, small_objects := smalls.length, large_backgrounds := larges.length, images_without_annotations := noAnns.length }, ?_⟩
    simp [validate_visual_annotations, hrun]

/-- C9 witness: a concrete well-formed dataset yields a summary. -/
theorem validate_C9_witness :
    wellFormed dWf = true ∧
      ∃ r, validate_visual_annotations (.loaded dWf) = .summary r :=
  ⟨by decide, (validate_C9 (.loaded dWf)).2 dWf rfl (by decide)⟩

end ValidationChecks
